import Mathlib

/-!
Verification development for the vat-number-geo resolution pipeline
(source file locate_vat.py).

The pure parts of the source (normalization, the per-country format
registry, the fallback status handling, the per-line control flow of
locate_vax_number) are embedded directly.  The two external network
collaborators are represented as follows:

* the VIES remote existence checker (pyVies plus the circuitbreaker
  decorator) is passed to the pipeline as an oracle returning the
  tri-state ExistenceOutcome that the specification assigns to it;
* the Axesor fallback endpoint is represented by the HTTP status code
  it answers for a given identifier; the status handling itself
  (lines 112-121 of the source) is embedded as axesor_validation.

Regex classes are modelled over ASCII: the class backslash-d is the
ASCII digit test and backslash-w is the ASCII word-character test.
-/

set_option maxHeartbeats 1000000

namespace LocateVat

/-- Character class for the regex class backslash-d (ASCII digits). -/
def chDigit (c : Char) : Bool := c.isDigit

/-- Character class for the regex class backslash-w (ASCII word characters). -/
def chWord (c : Char) : Bool := c.isAlpha || c.isDigit || c == '_'

/-- Character class accepting exactly the character a (a regex literal). -/
def chIs (a : Char) (c : Char) : Bool := c == a

/-- Character class for the regex class combining backslash-w and backslash-d. -/
def chWordDigit (c : Char) : Bool := chWord c || chDigit c

/-- Character class used in the Ireland pattern: digit, word character, plus sign or star. -/
def chIEClass (c : Char) : Bool := chDigit c || chWord c || c == '+' || c == '*'

/-- Matches a string (as a character list) pointwise against a list of
single-character classes: the chain form of a regex that is a plain
concatenation of single-character pieces. -/
def matchChain : List (Char → Bool) → List Char → Bool
  | [], [] => true
  | [], _ :: _ => false
  | _ :: _, [] => false
  | p :: ps, c :: cs => p c && matchChain ps cs

/-- The chain of literal classes for a literal string inside a regex. -/
def lits (s : String) : List (Char → Bool) := s.data.map chIs

/-- The chain for a counted digit class (backslash-d repeated n times). -/
def digitsN (n : Nat) : List (Char → Bool) := List.replicate n chDigit

/-- Consumes a literal prefix from a character list, returning the rest,
or none when the list does not start with that literal. -/
def dropLit : List Char → List Char → Option (List Char)
  | [], cs => some cs
  | _ :: _, [] => none
  | p :: ps, c :: cs => if c == p then dropLit ps cs else none

/-- A counted digit run with a length range (backslash-d with braces lo comma hi)
matched against the whole remaining input. -/
def digitsRange (lo hi : Nat) (cs : List Char) : Bool :=
  decide (lo ≤ cs.length) && decide (cs.length ≤ hi) && cs.all chDigit

/-- Austria: ATU then 8 digits. -/
def patAT : List Char → Bool := matchChain (lits "ATU" ++ digitsN 8)

/-- Belgium: BE0 then 9 digits. -/
def patBE : List Char → Bool := matchChain (lits "BE0" ++ digitsN 9)

/-- Bulgaria: BG then 9 to 10 digits. -/
def patBG : List Char → Bool := fun cs =>
  match dropLit "BG".data cs with
  | some r => digitsRange 9 10 r
  | none => false

/-- Cyprus: CY then 8 digits then a word character. -/
def patCY : List Char → Bool := matchChain (lits "CY" ++ digitsN 8 ++ [chWord])

/-- Czech Republic: CZ then 8 to 10 digits. -/
def patCZ : List Char → Bool := fun cs =>
  match dropLit "CZ".data cs with
  | some r => digitsRange 8 10 r
  | none => false

/-- Germany: DE then 9 digits. -/
def patDE : List Char → Bool := matchChain (lits "DE" ++ digitsN 9)

/-- Denmark: DK then four blocks of 2 digits separated by spaces. -/
def patDK : List Char → Bool :=
  matchChain (lits "DK" ++ digitsN 2 ++ [chIs ' '] ++ digitsN 2 ++ [chIs ' '] ++
    digitsN 2 ++ [chIs ' '] ++ digitsN 2)

/-- Estonia: EE then 9 digits. -/
def patEE : List Char → Bool := matchChain (lits "EE" ++ digitsN 9)

/-- Greece: EL then 9 digits. -/
def patEL : List Char → Bool := matchChain (lits "EL" ++ digitsN 9)

/-- Spain: ES then a word-or-digit character, 7 digits, a word-or-digit character. -/
def patES : List Char → Bool := matchChain (lits "ES" ++ [chWordDigit] ++ digitsN 7 ++ [chWordDigit])

/-- Finland: FI then 8 digits. -/
def patFI : List Char → Bool := matchChain (lits "FI" ++ digitsN 8)

/-- France: FR then two word-or-digit characters, a space, 9 digits. -/
def patFR : List Char → Bool :=
  matchChain (lits "FR" ++ [chWordDigit, chWordDigit, chIs ' '] ++ digitsN 9)

/-- United Kingdom: GB then one of three alternatives, two with internal
spaces and one of the shape GD-or-HA then 3 digits. -/
def patGB : List Char → Bool := fun cs =>
  match dropLit "GB".data cs with
  | some r =>
      matchChain (digitsN 3 ++ [chIs ' '] ++ digitsN 4 ++ [chIs ' '] ++ digitsN 2) r ||
      matchChain (digitsN 3 ++ [chIs ' '] ++ digitsN 4 ++ [chIs ' '] ++ digitsN 2 ++
        [chIs ' '] ++ digitsN 3) r ||
      matchChain (lits "GD" ++ digitsN 3) r ||
      matchChain (lits "HA" ++ digitsN 3) r
  | none => false

/-- Croatia: HR then 11 digits. -/
def patHR : List Char → Bool := matchChain (lits "HR" ++ digitsN 11)

/-- Hungary: HU then 8 digits. -/
def patHU : List Char → Bool := matchChain (lits "HU" ++ digitsN 8)

/-- Ireland: IE then either digit, special class, 5 digits, word character,
or 7 digits then WI. -/
def patIE : List Char → Bool := fun cs =>
  match dropLit "IE".data cs with
  | some r =>
      matchChain ([chDigit, chIEClass] ++ digitsN 5 ++ [chWord]) r ||
      matchChain (digitsN 7 ++ lits "WI") r
  | none => false

/-- Italy: IT then 11 digits. -/
def patIT : List Char → Bool := matchChain (lits "IT" ++ digitsN 11)

/-- Lithuania: LT then 9 to 12 digits. -/
def patLT : List Char → Bool := fun cs =>
  match dropLit "LT".data cs with
  | some r => digitsRange 9 12 r
  | none => false

/-- Luxembourg: LU then 8 digits. -/
def patLU : List Char → Bool := matchChain (lits "LU" ++ digitsN 8)

/-- Latvia: LV then 11 digits. -/
def patLV : List Char → Bool := matchChain (lits "LV" ++ digitsN 11)

/-- Malta: MT then 8 digits. -/
def patMT : List Char → Bool := matchChain (lits "MT" ++ digitsN 8)

/-- The Netherlands: NL then 9 digits, the letter B, 2 digits. -/
def patNL : List Char → Bool := matchChain (lits "NL" ++ digitsN 9 ++ [chIs 'B'] ++ digitsN 2)

/-- Poland: PL then 10 digits. -/
def patPL : List Char → Bool := matchChain (lits "PL" ++ digitsN 10)

/-- Portugal: PT then 9 digits. -/
def patPT : List Char → Bool := matchChain (lits "PT" ++ digitsN 9)

/-- Romania: RO then 2 to 10 digits. -/
def patRO : List Char → Bool := fun cs =>
  match dropLit "RO".data cs with
  | some r => digitsRange 2 10 r
  | none => false

/-- Sweden: SE then 12 digits. -/
def patSE : List Char → Bool := matchChain (lits "SE" ++ digitsN 12)

/-- Slovenia: SI then 8 digits. -/
def patSI : List Char → Bool := matchChain (lits "SI" ++ digitsN 8)

/-- Slovakia: SK then 10 digits. -/
def patSK : List Char → Bool := matchChain (lits "SK" ++ digitsN 10)

/-- The per-country format registry of Validator.validate (lines 33-64 of
the source): an immutable association of the 28 supported country codes
with their structural patterns. -/
def vat_number_regexps : List (String × (List Char → Bool)) :=
  [("AT", patAT), ("BE", patBE), ("BG", patBG), ("CY", patCY), ("CZ", patCZ),
   ("DE", patDE), ("DK", patDK), ("EE", patEE), ("EL", patEL), ("ES", patES),
   ("FI", patFI), ("FR", patFR), ("GB", patGB), ("HR", patHR), ("HU", patHU),
   ("IE", patIE), ("IT", patIT), ("LT", patLT), ("LU", patLU), ("LV", patLV),
   ("MT", patMT), ("NL", patNL), ("PL", patPL), ("PT", patPT), ("RO", patRO),
   ("SE", patSE), ("SI", patSI), ("SK", patSK)]

/-- Python re semantics of a pattern of the shape caret-body-dollar used by
re.match: the body must consume the whole string, except that the dollar
anchor also matches just before a single newline that ends the string. -/
def pyMatchDollar (m : List Char → Bool) (cs : List Char) : Bool :=
  m cs ||
    (match cs.getLast? with
     | some c => c == '\n' && m cs.dropLast
     | none => false)

/-- Error raised by Validator.validate when the requested country is not in
the registry: in the source the dictionary lookup on line 66 raises a
KeyError naming the missing code, the explicit unsupported-country
condition of the design. -/
inductive ValidateError where
  | unsupportedCountry (code : String)
deriving DecidableEq

/-- Validator.validate (lines 23-66 of the source): looks the country up in
the registry and tests the identifier against the pattern of that country;
a lookup of an absent country is the explicit unsupported-country error. -/
def Validator.validate (vat_number : String) (vat_country_code : String) :
    Except ValidateError Bool :=
  match vat_number_regexps.find? (fun p => p.1 == vat_country_code) with
  | some p => .ok (pyMatchDollar p.2 vat_number.data)
  | none => .error (.unsupportedCountry vat_country_code)

/-- The boolean value of Validator.validate at a country present in the
registry; the pipeline only calls validate with the codes ES, GB and DE,
for which the lookup always succeeds, so the error branch is unreachable
there. -/
def validateB (vat_number : String) (vat_country_code : String) : Bool :=
  match Validator.validate vat_number vat_country_code with
  | .ok b => b
  | .error _ => false

/-- Removal of the trailing run of newline characters, the rstrip call of
normalize (line 18 of the source). -/
def rstripNewlines (cs : List Char) : List Char :=
  (cs.reverse.dropWhile (fun c => c == '\n')).reverse

/-- The character-list body of normalize: strip trailing newlines, remove
every space, remove every star, upper-case. -/
def normalizeChars (cs : List Char) : List Char :=
  (((rstripNewlines cs).filter (fun c => c != ' ')).filter (fun c => c != '*')).map Char.toUpper

/-- normalize (lines 17-18 of the source). -/
def normalize (vat_number : String) : String := String.mk (normalizeChars vat_number.data)

/-- Tri-state result of the remote existence check, as the specification
defines it: Confirmed for a valid answer, NotFound for an invalid answer,
Unavailable for a circuit-open short-circuit or a transport failure. -/
inductive ExistenceOutcome where
  | Confirmed
  | NotFound
  | Unavailable
deriving DecidableEq

/-- The exception class of the source (lines 9-14), raised by
axesor_validation on an unexpected HTTP status. -/
structure HTTPError where
  msg : String
deriving DecidableEq

/-- axesor_validation (lines 94-121 of the source), as a function of the
HTTP status code the Axesor endpoint answers: 200 means the identifier was
not found, 302 means it resolved to a company detail page, and any other
status raises the explicit HTTPError. -/
def axesor_validation (status_code : Nat) : Except HTTPError Bool :=
  if status_code == 200 then .ok false
  else if status_code == 302 then .ok true
  else .error ⟨"Unexpected result from axesor"⟩

/-- Circuit breaker state: closed with a consecutive-failure counter, or
opened since a given instant. -/
inductive CBState where
  | closed (failures : Nat)
  | opened (since : Nat)
deriving DecidableEq

/-- Result of one circuit-protected call: the tri-state outcome handed to
the caller, the successor breaker state, and whether network input or
output was attempted at all. -/
structure CBResult where
  outcome : ExistenceOutcome
  state : CBState
  attemptedNetwork : Bool
deriving DecidableEq

/-- Modelled from the spec: the circuit breaker state machine guarding
vies_validation.  The state machine itself lives in the third-party
circuitbreaker library, which is not part of this repository; only its
configuration on line 69 of the source (failure threshold 5, recovery
timeout 10) is.  Following section 4.3 of the specification: a closed
circuit passes calls through, a definitive boolean answer resets the
failure counter, a transport failure increments it and opens the circuit
at the threshold; an open circuit short-circuits to Unavailable without
network traffic until the recovery timeout has elapsed, after which one
trial call is let through, closing the circuit on success and reopening
it (restarting the timer) on failure.  The argument svc is what the
network would answer: some b for a definitive boolean, none for a
transport or service failure. -/
def cbCall (threshold recovery_timeout : Nat) (s : CBState) (now : Nat)
    (svc : Option Bool) : CBResult :=
  match s with
  | .opened since =>
      if now < since + recovery_timeout then
        ⟨.Unavailable, .opened since, false⟩
      else
        match svc with
        | some true => ⟨.Confirmed, .closed 0, true⟩
        | some false => ⟨.NotFound, .closed 0, true⟩
        | none => ⟨.Unavailable, .opened now, true⟩
  | .closed n =>
      match svc with
      | some true => ⟨.Confirmed, .closed 0, true⟩
      | some false => ⟨.NotFound, .closed 0, true⟩
      | none =>
          if threshold ≤ n + 1 then ⟨.Unavailable, .opened now, true⟩
          else ⟨.Unavailable, .closed (n + 1), true⟩

/-- The breaker instance protecting vies_validation, with the threshold
and timeout of the decorator on line 69 of the source. -/
def viesBreakerCall : CBState → Nat → Option Bool → CBResult := cbCall 5 10

/-- One failure-call step of the vies breaker, keeping only the state. -/
def cbFailStep (s : CBState) (t : Nat) : CBState := (viesBreakerCall s t none).state

/-- The per-line classification of the pipeline: identifier, resolved
country (possibly empty) and error annotation (possibly empty). -/
structure ClassificationRecord where
  identifier : String
  country : String
  error : String
deriving DecidableEq

/-- The text row the loop writes for a record, the shape shared by the
write calls on lines 141-155 of the source. -/
def renderRecord (r : ClassificationRecord) : String :=
  r.identifier ++ "," ++ r.country ++ "," ++ r.error ++ "\n"

deriving instance DecidableEq for Except

/-- Result of processing one input line: the classification (or the
propagated HTTPError), together with the remote existence calls and the
fallback calls that were made while processing it. -/
structure LineResult where
  outcome : Except HTTPError ClassificationRecord
  viesCalls : List (String × String)
  fallbackCalls : List String
deriving DecidableEq

/-- The Germany arm and the final arm of the conditional chain
(lines 152-155 of the source), reached when the Spain branch and the
United Kingdom condition did not accept; calls collects the remote calls
already made on this line. -/
def deStep (vies : String → String → ExistenceOutcome) (vat_number : String)
    (calls : List (String × String)) : LineResult :=
  if validateB vat_number "DE" then
    if vies vat_number "DE" = .Confirmed then
      ⟨.ok ⟨vat_number, "DE", ""⟩, calls ++ [(vat_number, "DE")], []⟩
    else
      ⟨.ok ⟨vat_number, "", "Not Found"⟩, calls ++ [(vat_number, "DE")], []⟩
  else
    ⟨.ok ⟨vat_number, "", "Not Found"⟩, calls, []⟩

/-- One iteration of the loop of locate_vax_number (lines 130-155 of the
source).  The remote existence checker is the oracle vies, returning the
specification tri-state; only a Confirmed answer passes the truth tests
of the source (result is True on line 140, the conjunctions on lines 150
and 152).  axesorStatus gives the HTTP status the Axesor endpoint answers
for an identifier; axesor_validation turns it into the fallback boolean
or the propagated HTTPError. -/
def locate_line (vies : String → String → ExistenceOutcome)
    (axesorStatus : String → Nat) (line : String) : LineResult :=
  let vat_number := normalize line
  if validateB ("ES" ++ vat_number) "ES" then
    if vies ("ES" ++ vat_number) "ES" = .Confirmed then
      ⟨.ok ⟨vat_number, "ES", ""⟩, [("ES" ++ vat_number, "ES")], []⟩
    else
      match axesor_validation (axesorStatus vat_number) with
      | .ok true => ⟨.ok ⟨vat_number, "ES", ""⟩, [("ES" ++ vat_number, "ES")], [vat_number]⟩
      | .ok false =>
          ⟨.ok ⟨vat_number, "ES", "Not Found"⟩, [("ES" ++ vat_number, "ES")], [vat_number]⟩
      | .error e => ⟨.error e, [("ES" ++ vat_number, "ES")], [vat_number]⟩
  else
    if validateB vat_number "GB" then
      if vies vat_number "GB" = .Confirmed then
        ⟨.ok ⟨vat_number, "GB", ""⟩, [(vat_number, "GB")], []⟩
      else
        deStep vies vat_number [(vat_number, "GB")]
    else
      deStep vies vat_number []

/-- The record the loop writes for a line whose processing does not raise;
on a raising line this returns a junk empty record, never used there by
the theorems below. -/
def writtenRecord (vies : String → String → ExistenceOutcome)
    (axesorStatus : String → Nat) (line : String) : ClassificationRecord :=
  match (locate_line vies axesorStatus line).outcome with
  | .ok r => r
  | .error _ => ⟨"", "", ""⟩

/-- The loop of locate_vax_number (lines 124-155 of the source) over the
list of input lines: each line is classified and its record is written
immediately; an HTTPError raised while processing a line propagates,
aborting the batch and leaving exactly the records written before it. -/
def locate_vax_number (vies : String → String → ExistenceOutcome)
    (axesorStatus : String → Nat) :
    List String → List ClassificationRecord × Option HTTPError
  | [] => ([], none)
  | line :: rest =>
      match (locate_line vies axesorStatus line).outcome with
      | .ok r =>
          let p := locate_vax_number vies axesorStatus rest
          (r :: p.1, p.2)
      | .error e => ([], some e)

/-! Helper lemmas about Char.toUpper, the model of the upper call of
normalize. -/

theorem toNat_ofNat_valid (n : Nat) (h : n.isValidChar) : (Char.ofNat n).toNat = n := by
  simp only [Char.ofNat, dif_pos h]
  rfl

theorem toUpper_spec (c : Char) :
    (Char.toUpper c = c ∧ ¬(97 ≤ c.toNat ∧ c.toNat ≤ 122)) ∨
      ((Char.toUpper c).toNat + 32 = c.toNat ∧ 97 ≤ c.toNat ∧ c.toNat ≤ 122) := by
  unfold Char.toUpper
  by_cases h : c.toNat ≥ 97 ∧ c.toNat ≤ 122
  · right
    rw [if_pos h]
    have hv : (c.toNat - 32).isValidChar := by
      left
      omega
    rw [toNat_ofNat_valid _ hv]
    omega
  · left
    rw [if_neg h]
    exact ⟨rfl, fun hh => h ⟨hh.1, hh.2⟩⟩

theorem char_toNat_inj {c d : Char} (h : c.toNat = d.toNat) : c = d :=
  Char.eq_of_val_eq (UInt32.toNat.inj h)

/-- A character whose code is below 65 (so in particular space, star and
newline) is produced by toUpper only from itself. -/
theorem toUpper_fix_low {c a : Char} (ha : a.toNat < 65) (h : Char.toUpper c = a) : c = a := by
  rcases toUpper_spec c with ⟨h1, _⟩ | ⟨h1, h2, h3⟩
  · rw [← h1]
    exact h
  · rw [h] at h1
    omega

theorem toUpper_toUpper (c : Char) : Char.toUpper (Char.toUpper c) = Char.toUpper c := by
  rcases toUpper_spec c with ⟨h1, _⟩ | ⟨h1, h2, h3⟩
  · rw [h1, h1]
  · rcases toUpper_spec (Char.toUpper c) with ⟨g1, _⟩ | ⟨g1, g2, g3⟩
    · exact g1
    · omega

theorem matchChain_nil_iff {cs : List Char} : matchChain [] cs = true ↔ cs = [] := by
  cases cs <;> simp [matchChain]

theorem matchChain_cons_iff {p : Char → Bool} {ps : List (Char → Bool)} {cs : List Char} :
    matchChain (p :: ps) cs = true ↔
      ∃ c cs2, cs = c :: cs2 ∧ p c = true ∧ matchChain ps cs2 = true := by
  cases cs with
  | nil => simp [matchChain]
  | cons c cs =>
    simp only [matchChain, Bool.and_eq_true]
    constructor
    · rintro ⟨hp, hm⟩
      exact ⟨c, cs, rfl, hp, hm⟩
    · rintro ⟨c2, cs2, heq, hp, hm⟩
      cases heq
      exact ⟨hp, hm⟩

theorem matchChain_append {ps qs : List (Char → Bool)} {cs : List Char} :
    matchChain (ps ++ qs) cs = true ↔
      ∃ cs1 cs2, cs = cs1 ++ cs2 ∧ matchChain ps cs1 = true ∧ matchChain qs cs2 = true := by
  induction ps generalizing cs with
  | nil =>
    rw [List.nil_append]
    constructor
    · intro h
      exact ⟨[], cs, rfl, rfl, h⟩
    · rintro ⟨cs1, cs2, rfl, h1, h2⟩
      rw [matchChain_nil_iff.mp h1, List.nil_append]
      exact h2
  | cons p ps ih =>
    constructor
    · intro h
      rw [List.cons_append] at h
      rcases matchChain_cons_iff.mp h with ⟨c, cs2, rfl, hp, hm⟩
      rcases ih.mp hm with ⟨a, b, rfl, ha, hb⟩
      exact ⟨c :: a, b, rfl, matchChain_cons_iff.mpr ⟨c, a, rfl, hp, ha⟩, hb⟩
    · rintro ⟨cs1, cs2, rfl, h1, h2⟩
      rcases matchChain_cons_iff.mp h1 with ⟨c, a, rfl, hp, ha⟩
      rw [List.cons_append, List.cons_append]
      exact matchChain_cons_iff.mpr ⟨c, a ++ cs2, rfl, hp, ih.mpr ⟨a, cs2, rfl, ha, h2⟩⟩

theorem matchChain_replicate {n : Nat} {p : Char → Bool} {cs : List Char} :
    matchChain (List.replicate n p) cs = true ↔ cs.length = n ∧ cs.all p = true := by
  induction n generalizing cs with
  | zero => cases cs <;> simp [matchChain]
  | succ n ih =>
    cases cs with
    | nil => simp [List.replicate_succ, matchChain]
    | cons c cs =>
      simp only [List.replicate_succ, matchChain, Bool.and_eq_true, ih, List.all_cons,
        List.length_cons, Nat.succ.injEq]
      tauto

theorem matchChain_lits_chars {l cs : List Char} :
    matchChain (l.map chIs) cs = true ↔ cs = l := by
  induction l generalizing cs with
  | nil =>
    simpa using matchChain_nil_iff
  | cons a l ih =>
    cases cs with
    | nil => simp [matchChain]
    | cons c cs =>
      simp only [List.map_cons, matchChain, Bool.and_eq_true, chIs, beq_iff_eq, ih,
        List.cons.injEq]

theorem matchChain_exists_mem {ps : List (Char → Bool)} {cs : List Char}
    (h : matchChain ps cs = true) : ∀ p ∈ ps, ∃ c ∈ cs, p c = true := by
  induction ps generalizing cs with
  | nil => simp
  | cons q ps ih =>
    rcases matchChain_cons_iff.mp h with ⟨c, cs2, rfl, hq, hm⟩
    intro p hp
    rcases List.mem_cons.mp hp with rfl | hp
    · exact ⟨c, List.mem_cons_self _ _, hq⟩
    · rcases ih hm p hp with ⟨d, hd, hpd⟩
      exact ⟨d, List.mem_cons_of_mem _ hd, hpd⟩

theorem dropLit_eq_some {ps cs r : List Char} (h : dropLit ps cs = some r) : cs = ps ++ r := by
  induction ps generalizing cs with
  | nil =>
    simp only [dropLit, Option.some.injEq] at h
    simp [h]
  | cons p ps ih =>
    cases cs with
    | nil => simp [dropLit] at h
    | cons c cs =>
      simp only [dropLit] at h
      by_cases hc : c == p
      · rw [if_pos hc] at h
        have : c = p := beq_iff_eq.mp hc
        subst this
        simpa using ih h
      · rw [if_neg hc] at h
        cases h

theorem pyMatchDollar_of_no_newline {m : List Char → Bool} {cs : List Char}
    (h : '\n' ∉ cs) : pyMatchDollar m cs = m cs := by
  unfold pyMatchDollar
  cases hl : cs.getLast? with
  | none => simp
  | some c =>
    have hc : c ∈ cs := List.mem_of_getLast?_eq_some hl
    have hcn : (c == '\n') = false := by
      simp only [beq_eq_false_iff_ne, ne_eq]
      rintro rfl
      exact h hc
    simp [hcn]

theorem mem_rstripNewlines {c : Char} {cs : List Char} (h : c ∈ rstripNewlines cs) : c ∈ cs := by
  unfold rstripNewlines at h
  rw [List.mem_reverse] at h
  have := List.dropWhile_subset _ h
  rwa [List.mem_reverse] at this

theorem rstrip_no_newline {cs : List Char} (h2 : ∀ c ∈ cs.dropLast, c ≠ '\n') :
    '\n' ∉ rstripNewlines cs := by
  intro hmem
  unfold rstripNewlines at hmem
  rw [List.mem_reverse] at hmem
  rcases List.eq_nil_or_concat cs with rfl | ⟨body, last, rfl⟩
  · simp at hmem
  · rw [List.concat_eq_append, List.reverse_append, List.reverse_cons, List.reverse_nil,
      List.nil_append, List.singleton_append, List.dropWhile_cons] at hmem
    have hbody : ∀ c ∈ body, c ≠ '\n' := by
      intro c hc
      apply h2
      rw [List.concat_eq_append, List.dropLast_concat]
      exact hc
    by_cases hl : (last == '\n') = true
    · rw [if_pos hl] at hmem
      have := List.dropWhile_subset _ hmem
      rw [List.mem_reverse] at this
      exact hbody _ this rfl
    · rw [if_neg hl] at hmem
      rcases List.mem_cons.mp hmem with heq | hmem2
      · exact hl (beq_iff_eq.mpr heq.symm)
      · rw [List.mem_reverse] at hmem2
        exact hbody _ hmem2 rfl

theorem rstrip_eq_self_of_no_newline {cs : List Char} (h : '\n' ∉ cs) :
    rstripNewlines cs = cs := by
  unfold rstripNewlines
  cases hrev : cs.reverse with
  | nil =>
    rw [List.reverse_eq_nil_iff] at hrev
    simp [hrev]
  | cons c t =>
    have hc : c ∈ cs := by
      rw [← List.mem_reverse, hrev]
      exact List.mem_cons_self _ _
    have hcn : (c == '\n') = false := by
      rw [beq_eq_false_iff_ne]
      intro heq
      exact h (heq ▸ hc)
    rw [List.dropWhile_cons, hcn]
    simp only [Bool.false_eq_true, if_false]
    rw [← hrev, List.reverse_reverse]

theorem mem_normalizeChars {c : Char} {cs : List Char} (h : c ∈ normalizeChars cs) :
    ∃ d, d ∈ rstripNewlines cs ∧ d ≠ ' ' ∧ d ≠ '*' ∧ Char.toUpper d = c := by
  unfold normalizeChars at h
  rcases List.mem_map.mp h with ⟨d, hd, hup⟩
  rcases List.mem_filter.mp hd with ⟨hd2, hst⟩
  rcases List.mem_filter.mp hd2 with ⟨hd3, hsp⟩
  refine ⟨d, hd3, ?_, ?_, hup⟩
  · rwa [bne_iff_ne] at hsp
  · rwa [bne_iff_ne] at hst

theorem space_not_mem_normalizeChars {cs : List Char} : ' ' ∉ normalizeChars cs := by
  intro h
  rcases mem_normalizeChars h with ⟨d, _, hsp, _, hup⟩
  exact hsp (toUpper_fix_low (by decide) hup)

theorem star_not_mem_normalizeChars {cs : List Char} : '*' ∉ normalizeChars cs := by
  intro h
  rcases mem_normalizeChars h with ⟨d, _, _, hst, hup⟩
  exact hst (toUpper_fix_low (by decide) hup)

theorem newline_not_mem_normalizeChars {cs : List Char}
    (h2 : ∀ c ∈ cs.dropLast, c ≠ '\n') : '\n' ∉ normalizeChars cs := by
  intro h
  rcases mem_normalizeChars h with ⟨d, hd, _, _, hup⟩
  have := toUpper_fix_low (by decide) hup
  subst this
  exact rstrip_no_newline h2 hd

theorem normalizeChars_fixed {cs : List Char} : ∀ c ∈ normalizeChars cs, Char.toUpper c = c := by
  intro c h
  rcases mem_normalizeChars h with ⟨d, _, _, _, hup⟩
  rw [← hup]
  exact toUpper_toUpper d

theorem normalizeChars_of_clean {cs : List Char} (hnl : '\n' ∉ cs) (hsp : ' ' ∉ cs)
    (hst : '*' ∉ cs) (hup : ∀ c ∈ cs, Char.toUpper c = c) : normalizeChars cs = cs := by
  unfold normalizeChars
  rw [rstrip_eq_self_of_no_newline hnl]
  have hfs : List.filter (fun c => c != ' ') cs = cs := by
    apply List.filter_eq_self.mpr
    intro a ha
    rw [bne_iff_ne]
    intro heq
    exact hsp (heq ▸ ha)
  rw [hfs]
  have hft : List.filter (fun c => c != '*') cs = cs := by
    apply List.filter_eq_self.mpr
    intro a ha
    rw [bne_iff_ne]
    intro heq
    exact hst (heq ▸ ha)
  rw [hft]
  rw [List.map_congr_left hup]
  simp

theorem normalizeChars_only_junk {cs : List Char}
    (h1 : ∀ c ∈ cs, c = ' ' ∨ c = '*' ∨ c = '\n')
    (h2 : ∀ c ∈ cs.dropLast, c ≠ '\n') : normalizeChars cs = [] := by
  unfold normalizeChars
  rw [List.eq_nil_iff_forall_not_mem]
  intro c hc
  rw [List.mem_map] at hc
  rcases hc with ⟨d, hd, _⟩
  rcases List.mem_filter.mp hd with ⟨hd2, hne_star⟩
  rcases List.mem_filter.mp hd2 with ⟨hd3, hne_sp⟩
  rw [bne_iff_ne] at hne_star hne_sp
  rcases h1 d (mem_rstripNewlines hd3) with h | h | h
  · exact hne_sp h
  · exact hne_star h
  · exact rstrip_no_newline h2 (h ▸ hd3)

theorem normalize_data (s : String) : (normalize s).data = normalizeChars s.data := rfl

/-- Specification notion of format validation for a registered country:
the full identifier string matches the structural pattern of the country
anchored at both ends, nothing of the string left unconsumed. -/
def matchesAnchored (m : List Char → Bool) (s : String) : Bool := m s.data

/-- C5 counterexample: 301 is an HTTP redirect (3xx), yet axesor_validation
raises the HTTPError for it instead of returning true; only 302 returns
true. -/
theorem c5_counterexample :
    axesor_validation 301 = .error ⟨"Unexpected result from axesor"⟩ ∧
      ¬ axesor_validation 301 = .ok true := by
  constructor
  · rfl
  · intro h
    cases h

/-- C5 amended: axesor_validation returns false exactly on status 200,
true exactly on status 302, and raises the explicit, catchable HTTPError
on every other status (other redirects such as 301 included, and 404). -/
theorem c5_fallback_status_contract (status_code : Nat) :
    (status_code = 200 → axesor_validation status_code = .ok false) ∧
    (status_code = 302 → axesor_validation status_code = .ok true) ∧
    (status_code ≠ 200 → status_code ≠ 302 →
      axesor_validation status_code = .error ⟨"Unexpected result from axesor"⟩) := by
  refine ⟨?_, ?_, ?_⟩
  · rintro rfl
    rfl
  · rintro rfl
    rfl
  · intro h1 h2
    unfold axesor_validation
    rw [if_neg (by simpa using h1), if_neg (by simpa using h2)]

/-- C5 witness: on status 404 the fallback raises rather than answering. -/
theorem c5_fallback_status_contract_witness :
    axesor_validation 404 = .error ⟨"Unexpected result from axesor"⟩ :=
  (c5_fallback_status_contract 404).2.2 (by decide) (by decide)

/-- C6 counterexample: Validator.validate accepts DE123456789 followed by
a newline, because the Python dollar anchor also matches just before a
single trailing newline, although the full string does not match the
pattern anchored at both ends. -/
theorem c6_counterexample :
    Validator.validate "DE123456789\n" "DE" = .ok true ∧
      matchesAnchored patDE "DE123456789\n" = false := by
  constructor
  · rfl
  · rfl

/-- C6 amended: the registry holds 28 countries; for a registered country
and an identifier that does not end in a newline, validate returns exactly
whether the full string matches the structural pattern of the country
anchored at both ends (a single trailing newline is additionally
tolerated by the dollar anchor); DE123456789 matches the Germany rule and
DE12345678, one digit short, does not. -/
theorem c6_registry_and_validate :
    vat_number_regexps.length = 28 ∧
    (∀ (s c : String) (pr : String × (List Char → Bool)),
      vat_number_regexps.find? (fun p => p.1 == c) = some pr →
      s.data.getLast? ≠ some '\n' →
      Validator.validate s c = .ok (matchesAnchored pr.2 s)) ∧
    Validator.validate "DE123456789" "DE" = .ok true ∧
    Validator.validate "DE12345678" "DE" = .ok false := by
  refine ⟨rfl, ?_, rfl, rfl⟩
  intro s c pr hfind hlast
  unfold Validator.validate
  rw [hfind]
  unfold matchesAnchored pyMatchDollar
  cases hl : s.data.getLast? with
  | none => simp
  | some a =>
    have ha : (a == '\n') = false := by
      rw [beq_eq_false_iff_ne]
      rintro rfl
      exact hlast hl
    simp [ha]

/-- C6 witness: for an identifier without a trailing newline, validate at
DE is exactly the anchored match. -/
theorem c6_registry_and_validate_witness :
    Validator.validate "B12345678" "DE" = .ok (matchesAnchored patDE "B12345678") :=
  c6_registry_and_validate.2.1 "B12345678" "DE" ("DE", patDE) rfl (by decide)

/-- C7 counterexample: normalize is not idempotent on a string with an
interior newline: stripping trailing newlines happens before space
removal, so a second application strips further. -/
theorem c7_counterexample :
    ¬ (normalize (normalize "A\n \n") = normalize "A\n \n") := by
  decide

/-- C7 amended: normalize is total by construction, and it is idempotent
on every string whose newline characters occur only at the very end, in
particular on every line produced by readlines; idempotence fails in
general on strings with an interior newline. -/
theorem c7_normalize_idempotent_on_lines (x : String)
    (h : ∀ c ∈ x.data.dropLast, c ≠ '\n') : normalize (normalize x) = normalize x := by
  have hy : normalizeChars (normalizeChars x.data) = normalizeChars x.data :=
    normalizeChars_of_clean (newline_not_mem_normalizeChars h) space_not_mem_normalizeChars
      star_not_mem_normalizeChars normalizeChars_fixed
  show String.mk (normalizeChars (normalize x).data) = normalize x
  rw [normalize_data, hy]
  rfl

/-- C7 witness: normalize is idempotent on an ordinary input line. -/
theorem c7_normalize_idempotent_on_lines_witness :
    normalize (normalize " b 12*34\n") = normalize " b 12*34\n" :=
  c7_normalize_idempotent_on_lines " b 12*34\n" (by decide)

/-- C8: requesting validation for a country absent from the registry is
the explicit unsupported-country error (in the source, the KeyError of
the dictionary lookup on line 66), never a silent false. -/
theorem c8_unsupported_country (vat_number c : String)
    (h : ∀ pr ∈ vat_number_regexps, pr.1 ≠ c) :
    Validator.validate vat_number c = .error (.unsupportedCountry c) := by
  unfold Validator.validate
  have hnone : vat_number_regexps.find? (fun p => p.1 == c) = none := by
    rw [List.find?_eq_none]
    intro x hx
    simp only [beq_iff_eq]
    exact h x hx
  rw [hnone]

/-- C8 witness: the code XX is not in the registry and validate fails
with the unsupported-country error on it. -/
theorem c8_unsupported_country_witness :
    Validator.validate "123" "XX" = .error (.unsupportedCountry "XX") :=
  c8_unsupported_country "123" "XX" (by decide)

/-- C4: behavior of the circuit breaker guarding the remote existence
checker, with the threshold 5 and recovery timeout 10 of the source: a
definitive boolean answer never counts as a failure and resets the
counter; five consecutive transport failures open the circuit; a call on
an open circuit inside the recovery window returns Unavailable without
attempting network traffic; once the window has elapsed exactly one trial
is let through, closing the circuit (counter reset) on success and
reopening it with a restarted timer on failure. -/
theorem c4_circuit_breaker :
    (∀ n now b, viesBreakerCall (.closed n) now (some b) =
      ⟨if b then .Confirmed else .NotFound, .closed 0, true⟩) ∧
    (∀ t1 t2 t3 t4 t5 : Nat,
      cbFailStep (cbFailStep (cbFailStep (cbFailStep (cbFailStep (.closed 0) t1) t2) t3) t4) t5 =
        .opened t5) ∧
    (∀ since now svc, now < since + 10 →
      viesBreakerCall (.opened since) now svc = ⟨.Unavailable, .opened since, false⟩) ∧
    (∀ since now, since + 10 ≤ now →
      (∀ b, viesBreakerCall (.opened since) now (some b) =
        ⟨if b then .Confirmed else .NotFound, .closed 0, true⟩) ∧
      viesBreakerCall (.opened since) now none = ⟨.Unavailable, .opened now, true⟩) := by
  refine ⟨?_, ?_, ?_, ?_⟩
  · intro n now b
    cases b <;> rfl
  · intro t1 t2 t3 t4 t5
    rfl
  · intro since now svc h
    simp only [viesBreakerCall, cbCall, if_pos h]
  · intro since now h
    have hn : ¬ now < since + 10 := by omega
    refine ⟨?_, ?_⟩
    · intro b
      cases b <;> simp [viesBreakerCall, cbCall, if_neg hn]
    · simp only [viesBreakerCall, cbCall, if_neg hn]

/-- C4 witness: with the circuit opened at instant 2, a call at instant 5
is inside the recovery window and short-circuits without network
traffic. -/
theorem c4_circuit_breaker_witness :
    viesBreakerCall (.opened 2) 5 (some true) = ⟨.Unavailable, .opened 2, false⟩ :=
  c4_circuit_breaker.2.2.1 2 5 (some true) (by decide)

end LocateVat

namespace LocateVat

/-- C1: when the ES-prefixed identifier passes format validation, exactly
one remote existence call is made, on the prefixed identifier for ES; a
Confirmed outcome classifies as ES with no error and no fallback call; a
NotFound or Unavailable outcome triggers exactly one fallback call, after
which a true fallback answer classifies as ES with no error and a false
one as ES with error Not Found. -/
theorem c1_es_resolution (vies : String → String → ExistenceOutcome)
    (axesorStatus : String → Nat) (line : String)
    (hfmt : validateB ("ES" ++ normalize line) "ES" = true) :
    (locate_line vies axesorStatus line).viesCalls = [("ES" ++ normalize line, "ES")] ∧
    (vies ("ES" ++ normalize line) "ES" = .Confirmed →
      (locate_line vies axesorStatus line).outcome = .ok ⟨normalize line, "ES", ""⟩ ∧
      (locate_line vies axesorStatus line).fallbackCalls = []) ∧
    ((vies ("ES" ++ normalize line) "ES" = .NotFound ∨
        vies ("ES" ++ normalize line) "ES" = .Unavailable) →
      (locate_line vies axesorStatus line).fallbackCalls = [normalize line] ∧
      (axesor_validation (axesorStatus (normalize line)) = .ok true →
        (locate_line vies axesorStatus line).outcome = .ok ⟨normalize line, "ES", ""⟩) ∧
      (axesor_validation (axesorStatus (normalize line)) = .ok false →
        (locate_line vies axesorStatus line).outcome = .ok ⟨normalize line, "ES", "Not Found"⟩)) := by
  by_cases ho : vies ("ES" ++ normalize line) "ES" = .Confirmed
  · refine ⟨?_, ?_, ?_⟩
    · simp [locate_line, hfmt, ho]
    · intro _
      constructor <;> simp [locate_line, hfmt, ho]
    · intro hor
      rcases hor with h | h <;> rw [h] at ho <;> exact absurd ho (by decide)
  · have hsplit :
        locate_line vies axesorStatus line =
          match axesor_validation (axesorStatus (normalize line)) with
          | .ok true =>
              ⟨.ok ⟨normalize line, "ES", ""⟩,
                [("ES" ++ normalize line, "ES")], [normalize line]⟩
          | .ok false =>
              ⟨.ok ⟨normalize line, "ES", "Not Found"⟩,
                [("ES" ++ normalize line, "ES")], [normalize line]⟩
          | .error e =>
              ⟨.error e, [("ES" ++ normalize line, "ES")], [normalize line]⟩ := by
      simp [locate_line, hfmt, ho]
    cases hax : axesor_validation (axesorStatus (normalize line)) with
    | ok b =>
      cases b <;>
        refine ⟨?_, fun hc => absurd hc ho, fun _ => ⟨?_, ?_, ?_⟩⟩ <;>
          simp [hsplit, hax]
    | error e =>
      refine ⟨?_, fun hc => absurd hc ho, fun _ => ⟨?_, ?_, ?_⟩⟩ <;>
        simp [hsplit, hax]

end LocateVat

namespace LocateVat

/-- C1 witness: identifier B12345678 with a NotFound remote answer and a
200 fallback status yields the row content B12345678, ES, Not Found. -/
theorem c1_es_resolution_witness :
    (locate_line (fun _ _ => ExistenceOutcome.NotFound) (fun _ => 200) "B12345678").outcome =
      .ok ⟨"B12345678", "ES", "Not Found"⟩ := by
  have h := c1_es_resolution (fun _ _ => ExistenceOutcome.NotFound) (fun _ => 200) "B12345678"
    (by decide)
  have h2 := (h.2.2 (Or.inl rfl)).2.2 (by decide)
  have hnorm : normalize "B12345678" = "B12345678" := by decide
  rw [hnorm] at h2
  exact h2

/-- C2: when the ES-prefixed form fails format validation, no fallback
call is made and the remaining countries are tried in the fixed order GB
then DE: the first whose format matches and whose remote outcome is
Confirmed is accepted; a remote call for a country is only made when its
format matched; when neither country satisfies both conditions the record
has an empty country and error Not Found. -/
theorem c2_country_priority (vies : String → String → ExistenceOutcome)
    (axesorStatus : String → Nat) (line : String)
    (hES : validateB ("ES" ++ normalize line) "ES" = false) :
    (locate_line vies axesorStatus line).fallbackCalls = [] ∧
    (validateB (normalize line) "GB" = true → vies (normalize line) "GB" = .Confirmed →
      (locate_line vies axesorStatus line).outcome = .ok ⟨normalize line, "GB", ""⟩ ∧
      (locate_line vies axesorStatus line).viesCalls = [(normalize line, "GB")]) ∧
    (validateB (normalize line) "GB" = false →
      (normalize line, "GB") ∉ (locate_line vies axesorStatus line).viesCalls) ∧
    (validateB (normalize line) "DE" = false →
      (normalize line, "DE") ∉ (locate_line vies axesorStatus line).viesCalls) ∧
    ((validateB (normalize line) "GB" = false ∨ vies (normalize line) "GB" ≠ .Confirmed) →
      validateB (normalize line) "DE" = true → vies (normalize line) "DE" = .Confirmed →
      (locate_line vies axesorStatus line).outcome = .ok ⟨normalize line, "DE", ""⟩) ∧
    ((validateB (normalize line) "GB" = false ∨ vies (normalize line) "GB" ≠ .Confirmed) →
      (validateB (normalize line) "DE" = false ∨ vies (normalize line) "DE" ≠ .Confirmed) →
      (locate_line vies axesorStatus line).outcome = .ok ⟨normalize line, "", "Not Found"⟩) := by
  by_cases hGB : validateB (normalize line) "GB" = true
  · by_cases hoGB : vies (normalize line) "GB" = .Confirmed
    · have key : locate_line vies axesorStatus line =
          ⟨.ok ⟨normalize line, "GB", ""⟩, [(normalize line, "GB")], []⟩ := by
        simp [locate_line, hES, hGB, hoGB]
      refine ⟨by simp [key], fun _ _ => ⟨by simp [key], by simp [key]⟩,
        fun h => by simp [h] at hGB, fun _ => by simp [key],
        fun hor _ _ => ?_, fun hor _ => ?_⟩
      · rcases hor with h | h
        · simp [h] at hGB
        · exact absurd hoGB h
      · rcases hor with h | h
        · simp [h] at hGB
        · exact absurd hoGB h
    · by_cases hDE : validateB (normalize line) "DE" = true
      · by_cases hoDE : vies (normalize line) "DE" = .Confirmed
        · have key : locate_line vies axesorStatus line =
              ⟨.ok ⟨normalize line, "DE", ""⟩,
                [(normalize line, "GB"), (normalize line, "DE")], []⟩ := by
            simp [locate_line, deStep, hES, hGB, hoGB, hDE, hoDE]
          exact ⟨by simp [key], fun _ h => absurd h hoGB,
            fun h => by simp [h] at hGB, fun h => by simp [h] at hDE,
            fun _ _ _ => by simp [key],
            fun _ hor => by
              rcases hor with h | h
              · simp [h] at hDE
              · exact absurd hoDE h⟩
        · have key : locate_line vies axesorStatus line =
              ⟨.ok ⟨normalize line, "", "Not Found"⟩,
                [(normalize line, "GB"), (normalize line, "DE")], []⟩ := by
            simp [locate_line, deStep, hES, hGB, hoGB, hDE, hoDE]
          exact ⟨by simp [key], fun _ h => absurd h hoGB,
            fun h => by simp [h] at hGB, fun h => by simp [h] at hDE,
            fun _ _ h => absurd h hoDE,
            fun _ _ => by simp [key]⟩
      · have key : locate_line vies axesorStatus line =
            ⟨.ok ⟨normalize line, "", "Not Found"⟩, [(normalize line, "GB")], []⟩ := by
          simp [locate_line, deStep, hES, hGB, hoGB, hDE]
        exact ⟨by simp [key], fun _ h => absurd h hoGB,
          fun h => by simp [h] at hGB, fun _ => by simp [key],
          fun _ h => by simp [h] at hDE,
          fun _ _ => by simp [key]⟩
  · rw [Bool.not_eq_true] at hGB
    by_cases hDE : validateB (normalize line) "DE" = true
    · by_cases hoDE : vies (normalize line) "DE" = .Confirmed
      · have key : locate_line vies axesorStatus line =
            ⟨.ok ⟨normalize line, "DE", ""⟩, [(normalize line, "DE")], []⟩ := by
          simp [locate_line, deStep, hES, hGB, hDE, hoDE]
        exact ⟨by simp [key], fun h => by simp [h] at hGB,
          fun _ => by simp [key], fun h => by simp [h] at hDE,
          fun _ _ _ => by simp [key],
          fun _ hor => by
            rcases hor with h | h
            · simp [h] at hDE
            · exact absurd hoDE h⟩
      · have key : locate_line vies axesorStatus line =
            ⟨.ok ⟨normalize line, "", "Not Found"⟩, [(normalize line, "DE")], []⟩ := by
          simp [locate_line, deStep, hES, hGB, hDE, hoDE]
        exact ⟨by simp [key], fun h => by simp [h] at hGB,
          fun _ => by simp [key], fun h => by simp [h] at hDE,
          fun _ _ h => absurd h hoDE,
          fun _ _ => by simp [key]⟩
    · have key : locate_line vies axesorStatus line =
          ⟨.ok ⟨normalize line, "", "Not Found"⟩, [], []⟩ := by
        simp [locate_line, deStep, hES, hGB, hDE]
      exact ⟨by simp [key], fun h => by simp [h] at hGB,
        fun _ => by simp [key], fun _ => by simp [key],
        fun _ h => by simp [h] at hDE,
        fun _ _ => by simp [key]⟩

/-- C2 witness: the identifier DE123456789 fails the ES-prefixed format,
fails the GB format, matches the DE format, and with a Confirmed remote
answer for DE it is classified as DE with no error. -/
theorem c2_country_priority_witness :
    (locate_line (fun _ _ => ExistenceOutcome.Confirmed) (fun _ => 200)
        "DE123456789").outcome = .ok ⟨"DE123456789", "DE", ""⟩ := by
  have h := c2_country_priority (fun _ _ => ExistenceOutcome.Confirmed) (fun _ => 200)
    "DE123456789" (by decide)
  have h2 := h.2.2.2.2.1 (Or.inl (by decide)) (by decide) rfl
  have hnorm : normalize "DE123456789" = "DE123456789" := by decide
  rw [hnorm] at h2
  exact h2

end LocateVat

namespace LocateVat

/-- Characterization of a raising line: the only way locate_line
propagates an error is the HTTPError of the fallback checker, raised
inside the Spain branch when the remote outcome was not Confirmed and
the fallback endpoint answered a status other than 200 and 302. -/
theorem locate_line_error_char (vies : String → String → ExistenceOutcome)
    (axesorStatus : String → Nat) (l : String) (e : HTTPError)
    (h : (locate_line vies axesorStatus l).outcome = .error e) :
    e = ⟨"Unexpected result from axesor"⟩ ∧
    validateB ("ES" ++ normalize l) "ES" = true ∧
    vies ("ES" ++ normalize l) "ES" ≠ .Confirmed ∧
    axesorStatus (normalize l) ≠ 200 ∧ axesorStatus (normalize l) ≠ 302 ∧
    (locate_line vies axesorStatus l).fallbackCalls = [normalize l] := by
  by_cases hES : validateB ("ES" ++ normalize l) "ES" = true
  · by_cases ho : vies ("ES" ++ normalize l) "ES" = .Confirmed
    · rw [show (locate_line vies axesorStatus l).outcome =
          .ok ⟨normalize l, "ES", ""⟩ from by simp [locate_line, hES, ho]] at h
      cases h
    · by_cases h200 : axesorStatus (normalize l) = 200
      · have hax : axesor_validation (axesorStatus (normalize l)) = .ok false := by
          rw [h200]
          rfl
        rw [show (locate_line vies axesorStatus l).outcome =
            .ok ⟨normalize l, "ES", "Not Found"⟩ from by
          simp [locate_line, hES, ho, hax]] at h
        cases h
      · by_cases h302 : axesorStatus (normalize l) = 302
        · have hax : axesor_validation (axesorStatus (normalize l)) = .ok true := by
            rw [h302]
            rfl
          rw [show (locate_line vies axesorStatus l).outcome =
              .ok ⟨normalize l, "ES", ""⟩ from by simp [locate_line, hES, ho, hax]] at h
          cases h
        · have hax : axesor_validation (axesorStatus (normalize l)) =
              .error ⟨"Unexpected result from axesor"⟩ :=
            (c5_fallback_status_contract _).2.2 h200 h302
          have houtcome : (locate_line vies axesorStatus l).outcome =
              .error ⟨"Unexpected result from axesor"⟩ := by
            simp [locate_line, hES, ho, hax]
          rw [houtcome] at h
          cases h
          exact ⟨rfl, hES, ho, h200, h302, by simp [locate_line, hES, ho, hax]⟩
  · rw [Bool.not_eq_true] at hES
    by_cases hGB : validateB (normalize l) "GB" = true
    · by_cases hoGB : vies (normalize l) "GB" = .Confirmed
      · rw [show (locate_line vies axesorStatus l).outcome =
            .ok ⟨normalize l, "GB", ""⟩ from by simp [locate_line, hES, hGB, hoGB]] at h
        cases h
      · rw [show (locate_line vies axesorStatus l).outcome =
            (deStep vies (normalize l) [(normalize l, "GB")]).outcome from by
          simp [locate_line, hES, hGB, hoGB]] at h
        unfold deStep at h
        split at h
        · split at h <;> simp at h
        · simp at h
    · rw [show (locate_line vies axesorStatus l).outcome =
          (deStep vies (normalize l) []).outcome from by
        simp [locate_line, hES, hGB]] at h
      unfold deStep at h
      split at h
      · split at h <;> simp at h
      · simp at h

end LocateVat

namespace LocateVat

theorem writtenRecord_of_ok {vies : String → String → ExistenceOutcome}
    {axesorStatus : String → Nat} {l : String} {r : ClassificationRecord}
    (h : (locate_line vies axesorStatus l).outcome = .ok r) :
    writtenRecord vies axesorStatus l = r := by
  unfold writtenRecord
  rw [h]

/-- C3: the loop writes exactly one record per input line and writes it
immediately: when no line raises, the output is the per-line record list
of the whole batch; when a line raises, the batch aborts with the
HTTPError of the fallback checker and the output is exactly the records
of the lines already processed before the raising one; and every line
either yields a record or raises that specific fallback error, so nothing
else terminates processing. -/
theorem c3_incremental_output_and_abort (vies : String → String → ExistenceOutcome)
    (axesorStatus : String → Nat) (lines : List String) :
    ((locate_vax_number vies axesorStatus lines).2 = none →
      (locate_vax_number vies axesorStatus lines).1 =
        lines.map (writtenRecord vies axesorStatus)) ∧
    (∀ e, (locate_vax_number vies axesorStatus lines).2 = some e →
      ∃ pre bad post, lines = pre ++ bad :: post ∧
        (∀ l ∈ pre, (locate_line vies axesorStatus l).outcome =
          .ok (writtenRecord vies axesorStatus l)) ∧
        (locate_vax_number vies axesorStatus lines).1 =
          pre.map (writtenRecord vies axesorStatus) ∧
        (locate_line vies axesorStatus bad).outcome = .error e ∧
        e = ⟨"Unexpected result from axesor"⟩ ∧
        axesorStatus (normalize bad) ≠ 200 ∧ axesorStatus (normalize bad) ≠ 302) ∧
    (∀ l : String, (∃ r, (locate_line vies axesorStatus l).outcome = .ok r) ∨
      ((locate_line vies axesorStatus l).outcome =
          .error ⟨"Unexpected result from axesor"⟩ ∧
        axesorStatus (normalize l) ≠ 200 ∧ axesorStatus (normalize l) ≠ 302)) := by
  refine ⟨?_, ?_, ?_⟩
  · induction lines with
    | nil => intro _; rfl
    | cons line rest ih =>
      intro h
      cases hline : (locate_line vies axesorStatus line).outcome with
      | ok r =>
        have hrec : locate_vax_number vies axesorStatus (line :: rest) =
            (r :: (locate_vax_number vies axesorStatus rest).1,
             (locate_vax_number vies axesorStatus rest).2) := by
          simp [locate_vax_number, hline]
        rw [hrec] at h ⊢
        rw [List.map_cons, writtenRecord_of_ok hline]
        exact congrArg (r :: ·) (ih h)
      | error e =>
        have hrec : locate_vax_number vies axesorStatus (line :: rest) = ([], some e) := by
          simp [locate_vax_number, hline]
        rw [hrec] at h
        cases h
  · induction lines with
    | nil => intro e h; cases h
    | cons line rest ih =>
      intro e h
      cases hline : (locate_line vies axesorStatus line).outcome with
      | ok r =>
        have hrec : locate_vax_number vies axesorStatus (line :: rest) =
            (r :: (locate_vax_number vies axesorStatus rest).1,
             (locate_vax_number vies axesorStatus rest).2) := by
          simp [locate_vax_number, hline]
        rw [hrec] at h
        rcases ih e h with ⟨pre, bad, post, hsplit, hpre, hout, hbad, hmsg, h200, h302⟩
        refine ⟨line :: pre, bad, post, by rw [hsplit, List.cons_append], ?_, ?_, hbad, hmsg,
          h200, h302⟩
        · intro l hl
          rcases List.mem_cons.mp hl with rfl | hl
          · rw [hline, writtenRecord_of_ok hline]
          · exact hpre l hl
        · rw [hrec, List.map_cons, writtenRecord_of_ok hline]
          exact congrArg (r :: ·) hout
      | error e2 =>
        have hrec : locate_vax_number vies axesorStatus (line :: rest) = ([], some e2) := by
          simp [locate_vax_number, hline]
        rw [hrec] at h
        cases h
        rcases locate_line_error_char vies axesorStatus line e hline with
          ⟨hmsg, _, _, h200, h302, _⟩
        exact ⟨[], line, rest, rfl, by simp, by simp [hrec], hline, hmsg, h200, h302⟩
  · intro l
    cases hline : (locate_line vies axesorStatus l).outcome with
    | ok r => exact Or.inl ⟨r, rfl⟩
    | error e =>
      rcases locate_line_error_char vies axesorStatus l e hline with
        ⟨hmsg, _, _, h200, h302, _⟩
      refine Or.inr ⟨?_, h200, h302⟩
      rw [← hmsg]

/-- C3 witness: a one-line batch that does not raise produces exactly one
record. -/
theorem c3_incremental_output_and_abort_witness :
    (locate_vax_number (fun _ _ => ExistenceOutcome.NotFound) (fun _ => 200)
        ["B12345678"]).1 =
      ["B12345678"].map (writtenRecord (fun _ _ => ExistenceOutcome.NotFound)
        (fun _ => 200)) :=
  (c3_incremental_output_and_abort (fun _ _ => ExistenceOutcome.NotFound) (fun _ => 200)
    ["B12345678"]).1 (by decide)

end LocateVat

namespace LocateVat

theorem matchChain_digitsN {n : Nat} {cs : List Char} :
    matchChain (digitsN n) cs = true ↔ cs.length = n ∧ cs.all chDigit = true := by
  unfold digitsN
  exact matchChain_replicate

theorem matchChain_lits_iff {s : String} {cs : List Char} :
    matchChain (lits s) cs = true ↔ cs = s.data := by
  unfold lits
  exact matchChain_lits_chars

/-- On a space-free input the two space-separated alternatives of the GB
pattern cannot match, so a GB match forces the shape GB then GD or HA
then three digits. -/
theorem gb_nospace_shape {cs : List Char} (hs : ' ' ∉ cs) (h : patGB cs = true) :
    ∃ t ds, cs = 'G' :: 'B' :: (t ++ ds) ∧ (t = ['G', 'D'] ∨ t = ['H', 'A']) ∧
      ds.length = 3 ∧ ds.all chDigit = true := by
  unfold patGB at h
  cases hdrop : dropLit "GB".data cs with
  | none =>
    rw [hdrop] at h
    cases h
  | some r =>
    rw [hdrop] at h
    have hcs : cs = 'G' :: 'B' :: r := by
      have := dropLit_eq_some hdrop
      simpa using this
    subst hcs
    have hsr : ' ' ∉ r := fun hr => hs (by simp [hr])
    have hspace1 : ∀ qs : List (Char → Bool), chIs ' ' ∈ qs →
        matchChain qs r = true → False := by
      intro qs hq hm
      rcases matchChain_exists_mem hm (chIs ' ') hq with ⟨c, hc, hcc⟩
      have : c = ' ' := beq_iff_eq.mp hcc
      exact hsr (this ▸ hc)
    simp only [Bool.or_eq_true] at h
    rcases h with ((h | h) | h) | h
    · exact absurd h (fun hm => hspace1 _ (by simp) hm)
    · exact absurd h (fun hm => hspace1 _ (by simp) hm)
    · rcases matchChain_append.mp h with ⟨cs1, cs2, rfl, hl, hd⟩
      have h1 : cs1 = "GD".data := matchChain_lits_iff.mp hl
      rcases matchChain_digitsN.mp hd with ⟨hlen, hall⟩
      exact ⟨['G', 'D'], cs2, by rw [h1], Or.inl rfl, hlen, hall⟩
    · rcases matchChain_append.mp h with ⟨cs1, cs2, rfl, hl, hd⟩
      have h1 : cs1 = "HA".data := matchChain_lits_iff.mp hl
      rcases matchChain_digitsN.mp hd with ⟨hlen, hall⟩
      exact ⟨['H', 'A'], cs2, by rw [h1], Or.inr rfl, hlen, hall⟩

/-- A record classified as GB can only come out of the United Kingdom arm,
whose guard requires the GB format to have matched the normalized
identifier. -/
theorem gb_country_needs_format (vies : String → String → ExistenceOutcome)
    (axesorStatus : String → Nat) (line : String) (r : ClassificationRecord)
    (hok : (locate_line vies axesorStatus line).outcome = .ok r)
    (hgb : r.country = "GB") : validateB (normalize line) "GB" = true := by
  by_cases hES : validateB ("ES" ++ normalize line) "ES" = true
  · exfalso
    by_cases ho : vies ("ES" ++ normalize line) "ES" = .Confirmed
    · rw [show (locate_line vies axesorStatus line).outcome =
          .ok ⟨normalize line, "ES", ""⟩ from by simp [locate_line, hES, ho]] at hok
      simp only [Except.ok.injEq] at hok
      subst hok
      simp at hgb
    · cases hax : axesor_validation (axesorStatus (normalize line)) with
      | ok b =>
        cases b
        · rw [show (locate_line vies axesorStatus line).outcome =
              .ok ⟨normalize line, "ES", "Not Found"⟩ from by
            simp [locate_line, hES, ho, hax]] at hok
          simp only [Except.ok.injEq] at hok
          subst hok
          simp at hgb
        · rw [show (locate_line vies axesorStatus line).outcome =
              .ok ⟨normalize line, "ES", ""⟩ from by
            simp [locate_line, hES, ho, hax]] at hok
          simp only [Except.ok.injEq] at hok
          subst hok
          simp at hgb
      | error e =>
        rw [show (locate_line vies axesorStatus line).outcome = .error e from by
          simp [locate_line, hES, ho, hax]] at hok
        cases hok
  · rw [Bool.not_eq_true] at hES
    by_cases hGB : validateB (normalize line) "GB" = true
    · exact hGB
    · exfalso
      rw [Bool.not_eq_true] at hGB
      by_cases hDE : validateB (normalize line) "DE" = true
      · by_cases hoDE : vies (normalize line) "DE" = .Confirmed
        · rw [show (locate_line vies axesorStatus line).outcome =
              .ok ⟨normalize line, "DE", ""⟩ from by
            simp [locate_line, deStep, hES, hGB, hDE, hoDE]] at hok
          simp only [Except.ok.injEq] at hok
          subst hok
          simp at hgb
        · rw [show (locate_line vies axesorStatus line).outcome =
              .ok ⟨normalize line, "", "Not Found"⟩ from by
            simp [locate_line, deStep, hES, hGB, hDE, hoDE]] at hok
          simp only [Except.ok.injEq] at hok
          subst hok
          simp at hgb
      · rw [show (locate_line vies axesorStatus line).outcome =
            .ok ⟨normalize line, "", "Not Found"⟩ from by
          simp [locate_line, deStep, hES, hGB, hDE]] at hok
        simp only [Except.ok.injEq] at hok
        subst hok
        simp at hgb

/-- C9: a line classified as GB has a normalized identifier of the shape
GB then GD or HA then three digits; the space-containing alternatives of
the GB pattern are unreachable because normalization removes every space
(the hypothesis on the line says its newline characters occur only at the
end, which holds for every line readlines produces). -/
theorem c9_gb_classification (vies : String → String → ExistenceOutcome)
    (axesorStatus : String → Nat) (line : String) (r : ClassificationRecord)
    (hline : ∀ c ∈ line.data.dropLast, c ≠ '\n')
    (hok : (locate_line vies axesorStatus line).outcome = .ok r)
    (hgb : r.country = "GB") :
    ∃ t ds, (normalize line).data = 'G' :: 'B' :: (t ++ ds) ∧
      (t = ['G', 'D'] ∨ t = ['H', 'A']) ∧ ds.length = 3 ∧ ds.all chDigit = true := by
  have hfmt : validateB (normalize line) "GB" = true :=
    gb_country_needs_format vies axesorStatus line r hok hgb
  have hnl : '\n' ∉ (normalize line).data := by
    rw [normalize_data]
    exact newline_not_mem_normalizeChars hline
  have hsp : ' ' ∉ (normalize line).data := by
    rw [normalize_data]
    exact space_not_mem_normalizeChars
  have hval : pyMatchDollar patGB (normalize line).data = true := by
    have heq : validateB (normalize line) "GB" =
        pyMatchDollar patGB (normalize line).data := rfl
    rw [← heq]
    exact hfmt
  rw [pyMatchDollar_of_no_newline hnl] at hval
  exact gb_nospace_shape hsp hval

/-- C9 witness: the line GBGD123 with a Confirmed remote answer is
classified as GB and its normalized identifier has the required shape. -/
theorem c9_gb_classification_witness :
    ∃ t ds, (normalize "GBGD123\n").data = 'G' :: 'B' :: (t ++ ds) ∧
      (t = ['G', 'D'] ∨ t = ['H', 'A']) ∧ ds.length = 3 ∧ ds.all chDigit = true :=
  c9_gb_classification (fun _ _ => ExistenceOutcome.Confirmed) (fun _ => 200) "GBGD123\n"
    ⟨"GBGD123", "GB", ""⟩ (by decide) (by decide) rfl

/-- C10: a line made only of spaces, stars and trailing newlines (the
empty line included) normalizes to the empty identifier, fails every
format test without any remote or fallback call, and yields exactly the
row content of an empty identifier, empty country and error Not Found. -/
theorem c10_junk_lines (vies : String → String → ExistenceOutcome)
    (axesorStatus : String → Nat) (line : String)
    (h1 : ∀ c ∈ line.data, c = ' ' ∨ c = '*' ∨ c = '\n')
    (h2 : ∀ c ∈ line.data.dropLast, c ≠ '\n') :
    locate_line vies axesorStatus line = ⟨.ok ⟨"", "", "Not Found"⟩, [], []⟩ ∧
    renderRecord ⟨"", "", "Not Found"⟩ = ",,Not Found\n" := by
  have hnorm : normalize line = "" := by
    show String.mk (normalizeChars line.data) = ""
    rw [normalizeChars_only_junk h1 h2]
  refine ⟨?_, rfl⟩
  have hES : validateB "ES" "ES" = false := by decide
  have hGB : validateB "" "GB" = false := by decide
  have hDE : validateB "" "DE" = false := by decide
  simp [locate_line, deStep, hnorm, hES, hGB, hDE]

/-- C10 witness: the line of one space, one star and a newline yields the
Not Found row with no remote traffic. -/
theorem c10_junk_lines_witness :
    locate_line (fun _ _ => ExistenceOutcome.Confirmed) (fun _ => 200) " *\n" =
      ⟨.ok ⟨"", "", "Not Found"⟩, [], []⟩ :=
  (c10_junk_lines (fun _ _ => ExistenceOutcome.Confirmed) (fun _ => 200) " *\n"
    (by decide) (by decide)).1

end LocateVat
